import Mathlib

/-!
Verification of the assignment-optimization core of the pl-kds repository
(src/optimizer.py together with the configuration tables of src/config.py).

The Python code is shallowly embedded:
* a pandas player row becomes the structure `Player` (optional normalized
  fields model possibly-absent columns, the sparse statistic columns become
  an association list);
* the configuration dictionaries `FORMATIONS`, `POSITION_CAN_BE_FILLED_BY`,
  `STRATEGY_WEIGHTS` and `POSITIONAL_WEIGHTS` become string-keyed lookup
  functions built from the same literals (Python float literals such as
  0.35 are written as the rationals they denote);
* `calculate_position_score` is embedded piecewise (`adjustedWeights`,
  `ratingScore`, `statFold`, `dataScore`, `usedStats`) and assembled in
  `calculate_position_score` with the same branch structure;
* the PuLP/CBC integer-programming solver is external third-party code, so
  it is modelled as an oracle of type `Solver`; `LPFeasible` is the exact
  constraint system `solve_optimal_lineup` builds (constraints 1-5 of the
  source), and `SolverSound` states the solver contract: a solver that
  reports the status string of an optimal solve returns variable values
  satisfying every constraint it was given;
* `solve_optimal_lineup` raises `ValueError` for an unknown formation or
  strategy, which is modelled by the `Except String` return type;
  `solve_alternative_lineup` cannot raise and returns a plain record.

Rational arithmetic is used throughout; the four core rational operations
are made semireducible so that concrete runs of the embedded program can be
evaluated by `decide`.
-/

attribute [local semireducible] Rat.add Rat.sub Rat.mul Rat.inv

/-- A player row of the (already normalized) data frame handed to the
optimizer.  Only the columns read by `optimizer.py` are modelled:
`ID`, `Alt_Pozisyon`, `Fiyat_M`, `Sakatlik`, `Rating`, `Form`, the three
normalized strength columns (absent column modelled by `none`) and the
sparse `stat_<metric>_Norm` columns as an association list from metric
name to normalized value (a metric absent from the list models an absent
column). -/
structure Player where
  id : Nat
  altPozisyon : String
  fiyatM : ℚ
  sakatlik : Nat
  rating : ℚ
  form : ℚ
  ofansGucuNorm : Option ℚ
  defansGucuNorm : Option ℚ
  formNorm : Option ℚ
  stats : List (String × ℚ)
deriving DecidableEq

/-- Result quadruple `(selected, total_score, total_cost, status)` of the
solve functions; `assignment = none` models the Python `None`. -/
structure SolveResult (α : Type) where
  assignment : Option α
  totalScore : ℚ
  totalCost : ℚ
  status : String
deriving DecidableEq

/-- config.py `FORMATIONS`: each formation's slot requirements, in the
insertion order of the Python dict. -/
def FORMATIONS (f : String) : Option (List (String × Nat)) :=
  if f = "4-4-2" then
    some [("GK", 1), ("CB", 2), ("LB", 1), ("RB", 1), ("CM", 2), ("LM", 1), ("RM", 1), ("ST", 2)]
  else if f = "4-3-3" then
    some [("GK", 1), ("CB", 2), ("LB", 1), ("RB", 1), ("CM", 2), ("DM", 1), ("LW", 1), ("RW", 1), ("ST", 1)]
  else if f = "3-5-2" then
    some [("GK", 1), ("CB", 3), ("LM", 1), ("RM", 1), ("CM", 2), ("DM", 1), ("ST", 2)]
  else if f = "5-3-2" then
    some [("GK", 1), ("CB", 3), ("LB", 1), ("RB", 1), ("CM", 2), ("DM", 1), ("ST", 2)]
  else if f = "4-2-3-1" then
    some [("GK", 1), ("CB", 2), ("LB", 1), ("RB", 1), ("DM", 2), ("CAM", 1), ("LM", 1), ("RM", 1), ("ST", 1)]
  else if f = "3-4-3" then
    some [("GK", 1), ("CB", 3), ("LM", 1), ("RM", 1), ("CM", 2), ("LW", 1), ("RW", 1), ("ST", 1)]
  else none

/-- config.py `POSITION_CAN_BE_FILLED_BY`: which player sub-positions may
fill a slot. -/
def POSITION_CAN_BE_FILLED_BY (p : String) : Option (List String) :=
  if p = "GK" then some ["GK"]
  else if p = "CB" then some ["CB"]
  else if p = "LB" then some ["LB"]
  else if p = "RB" then some ["RB"]
  else if p = "DM" then some ["DM", "CM"]
  else if p = "CM" then some ["CM", "DM", "CAM"]
  else if p = "CAM" then some ["CAM", "CM"]
  else if p = "LM" then some ["LM", "LW"]
  else if p = "RM" then some ["RM", "RW"]
  else if p = "LW" then some ["LW", "LM", "ST"]
  else if p = "RW" then some ["RW", "RM", "ST"]
  else if p = "ST" then some ["ST", "LW", "RW", "CAM"]
  else none

/-- optimizer.py uses `POSITION_CAN_BE_FILLED_BY.get(p, [p])`: a slot
absent from the table is matched only by its own name. -/
def eligibleFor (p : String) : List String :=
  (POSITION_CAN_BE_FILLED_BY p).getD [p]

/-- Strategy weight triple `{'ofans', 'defans', 'form'}` of config.py. -/
structure Weights3 where
  ofans : ℚ
  defans : ℚ
  form : ℚ
deriving DecidableEq

/-- config.py `STRATEGY_WEIGHTS`. -/
def STRATEGY_WEIGHTS (s : String) : Option Weights3 :=
  if s = "Ofansif" then some ⟨1/2, 1/5, 3/10⟩
  else if s = "Defansif" then some ⟨1/5, 1/2, 3/10⟩
  else if s = "Dengeli" then some ⟨7/20, 7/20, 3/10⟩
  else none

/-- The `'Dengeli'` entry, used as the default of the
`STRATEGY_WEIGHTS.get(strategy, STRATEGY_WEIGHTS['Dengeli'])` lookup. -/
def dengeliWeights : Weights3 := ⟨7/20, 7/20, 3/10⟩

/-- config.py `POSITIONAL_WEIGHTS`: per-slot weighted statistic metrics, in
dict insertion order; `POSITIONAL_WEIGHTS.get(position, {})` yields `[]`
for a slot without an entry. -/
def POSITIONAL_WEIGHTS (p : String) : List (String × ℚ) :=
  if p = "LB" then
    [("tackles", 1/4), ("recoveries", 1/4), ("creativity", 1/5), ("clean_sheets", 3/20), ("xA", 3/20)]
  else if p = "RB" then
    [("tackles", 1/4), ("recoveries", 1/4), ("creativity", 1/5), ("clean_sheets", 3/20), ("xA", 3/20)]
  else if p = "CB" then
    [("tackles", 3/10), ("recoveries", 3/10), ("clean_sheets", 1/5), ("blocks", 1/10), ("aerial_won", 1/10)]
  else if p = "GK" then
    [("clean_sheets", 2/5), ("saves", 2/5), ("bonus", 1/5)]
  else if p = "DM" then
    [("tackles", 3/10), ("recoveries", 3/10), ("bps", 1/5), ("pass_completion", 1/5)]
  else if p = "CM" then
    [("influence", 3/10), ("creativity", 3/10), ("tackles", 1/5), ("xA", 1/5)]
  else if p = "CAM" then
    [("creativity", 3/10), ("xA", 3/10), ("threat", 1/5), ("goals", 1/10), ("assists", 1/10)]
  else if p = "LM" then
    [("creativity", 3/10), ("threat", 3/10), ("xA", 1/5), ("goals", 1/5)]
  else if p = "RM" then
    [("creativity", 3/10), ("threat", 3/10), ("xA", 1/5), ("goals", 1/5)]
  else if p = "LW" then
    [("xG", 3/10), ("goals", 3/10), ("threat", 1/5), ("creativity", 1/10), ("touches_in_box", 1/10)]
  else if p = "RW" then
    [("xG", 3/10), ("goals", 3/10), ("threat", 1/5), ("creativity", 1/10), ("touches_in_box", 1/10)]
  else if p = "ST" then
    [("xG", 2/5), ("goals", 3/10), ("threat", 1/5), ("bps", 1/10)]
  else []

/-- The defensive slot list of `calculate_position_score`. -/
def defensiveSlots : List String := ["CB", "LB", "RB", "GK", "DM"]

/-- The attacking slot list of `calculate_position_score`. -/
def attackingSlots : List String := ["ST", "LW", "RW", "CAM"]

/-- Steps 1-2 of `calculate_position_score`: strategy base weights
(unknown strategy falls back to `'Dengeli'`), the 0.6/1.4 positional
adjustment, and renormalization to sum 1.  Returns
`(offense_weight, defense_weight, form_weight)`. -/
def adjustedWeights (position strategy : String) : ℚ × ℚ × ℚ :=
  let sw := (STRATEGY_WEIGHTS strategy).getD dengeliWeights
  let ow0 := if position ∈ defensiveSlots then sw.ofans * (3/5)
             else if position ∈ attackingSlots then sw.ofans * (7/5)
             else sw.ofans
  let dw0 := if position ∈ defensiveSlots then sw.defans * (7/5)
             else if position ∈ attackingSlots then sw.defans * (3/5)
             else sw.defans
  let total := ow0 + dw0 + sw.form
  (ow0 / total, dw0 / total, sw.form / total)

/-- The rating-based `base_score` of `calculate_position_score`:
the weighted normalized strengths scaled by 100, with an absent normalized
column read as 0.5 (`row.get(..., 0.5)`). -/
def ratingScore (row : Player) (position strategy : String) : ℚ :=
  let w := adjustedWeights position strategy
  (w.1 * row.ofansGucuNorm.getD (1/2) +
   w.2.1 * row.defansGucuNorm.getD (1/2) +
   w.2.2 * row.formNorm.getD (1/2)) * 100

/-- The statistic loop of `calculate_position_score`: folds over the
slot's weighted metrics, summing `val * weight` for present columns and
tracking whether some present value was strictly positive. -/
def statFold (stats weights : List (String × ℚ)) : ℚ × Bool :=
  weights.foldl
    (fun acc mw =>
      match stats.lookup mw.1 with
      | none => acc
      | some v => (acc.1 + v * mw.2, acc.2 || decide (0 < v)))
    (0, false)

/-- `data_score` of `calculate_position_score` (still on the 0-1 scale). -/
def dataScore (row : Player) (position : String) : ℚ :=
  (statFold row.stats (POSITIONAL_WEIGHTS position)).1

/-- `used_stats` of `calculate_position_score`. -/
def usedStats (row : Player) (position : String) : Bool :=
  (statFold row.stats (POSITIONAL_WEIGHTS position)).2

/-- optimizer.py `calculate_position_score`: hybrid of the rating-based
score and the statistic-based score; with observed statistics the blend is
30% rating + 70% statistics (the latter scaled by 100), otherwise only 30%
of the rating-based score is returned. -/
def calculate_position_score (row : Player) (position : String) (strategy : String) : ℚ :=
  if usedStats row position = true ∧ 0 < dataScore row position then
    ratingScore row position strategy * (3/10) + (dataScore row position * 100) * (7/10)
  else
    ratingScore row position strategy * (3/10)

/-- The score matrix `scores[(i, p)]` of `solve_optimal_lineup`, indexed by
position of the player in the healthy pool: `calculate_position_score` for
an eligible pair and the penalty value -1000 otherwise. -/
def pairScore (pool : List Player) (strategy : String) (i : Nat) (p : String) : ℚ :=
  match pool.get? i with
  | none => -1000
  | some row =>
    if row.altPozisyon ∈ eligibleFor p then calculate_position_score row p strategy
    else -1000

/-- Values of the binary decision variables `y[(i, p)]`. -/
def Assign : Type := Nat → String → Bool

/-- The external PuLP/CBC solver, modelled as an oracle: from the healthy
pool, the formation requirements, the budget and the strategy (the data
defining the integer program built by `solve_optimal_lineup`) it produces
the status string `LpStatus[model.status]` and the variable values. -/
def Solver : Type :=
  List Player → List (String × Nat) → ℚ → String → String × Assign

/-- The five constraint families of the integer program built by
`solve_optimal_lineup` (source lines 211-232), over the healthy pool:
1. each player is assigned to at most one slot;
2. each slot is filled by exactly its required count;
3. exactly 11 assignments in total;
4. total price of assigned players is at most the budget;
5. a pair whose score is below -500 (the ineligible pairs) is forced to 0. -/
def LPFeasible (pool : List Player) (req : List (String × Nat)) (budget : ℚ)
    (strategy : String) (y : Assign) : Prop :=
  (∀ i ∈ List.range pool.length, (req.map Prod.fst).countP (fun p => y i p) ≤ 1) ∧
  (∀ pr ∈ req, (List.range pool.length).countP (fun i => y i pr.1) = pr.2) ∧
  ((List.range pool.length).map (fun i => (req.map Prod.fst).countP (fun p => y i p))).sum = 11 ∧
  ((List.range pool.length).map
    (fun i => ((pool.get? i).map Player.fiyatM).getD 0 *
      ((req.map Prod.fst).countP (fun p => y i p) : ℚ))).sum ≤ budget ∧
  (∀ i ∈ List.range pool.length, ∀ p ∈ req.map Prod.fst,
    pairScore pool strategy i p < -500 → y i p = false)

/-- The contract of the external integer-programming library: whenever it
reports status `'Optimal'`, the variable values it returns satisfy every
constraint of the model it was handed. -/
def SolverSound (solver : Solver) : Prop :=
  ∀ pool req budget strategy,
    (solver pool req budget strategy).1 = "Optimal" →
    LPFeasible pool req budget strategy (solver pool req budget strategy).2

/-- The extraction loop of `solve_optimal_lineup` (lines 253-262): for each
player take the first position with variable value 1 (the `break`), and
record the pair (player index, assigned position). -/
def extractAssignment (n : Nat) (positions : List String) (y : Assign) :
    List (Nat × String) :=
  (List.range n).filterMap
    (fun i => (positions.find? (fun p => y i p)).map (fun p => (i, p)))

/-- `df.loc[i, 'Fiyat_M']` on the healthy pool (0 for an index that is out
of range, which never occurs for extracted indices). -/
def priceAt (pool : List Player) (i : Nat) : ℚ :=
  ((pool.get? i).map Player.fiyatM).getD 0

/-- optimizer.py `solve_optimal_lineup`, with the external CBC solve
abstracted by a `Solver` oracle.  `ValueError` is modelled by `.error`. -/
def solve_optimal_lineup (solver : Solver) (df : List Player)
    (formation : String) (budget : ℚ) (strategy : String) :
    Except String (SolveResult (List (Nat × String))) :=
  if (FORMATIONS formation).isNone then .error ("Geçersiz formasyon: " ++ formation)
  else if (STRATEGY_WEIGHTS strategy).isNone then .error ("Geçersiz strateji: " ++ strategy)
  else
    let freq := (FORMATIONS formation).getD []
    let pool := df.filter (fun r => r.sakatlik == 0)
    if pool.length < 11 then .ok ⟨none, 0, 0, "Infeasible"⟩
    else
      let positions := freq.map Prod.fst
      let res := solver pool freq budget strategy
      if res.1 ≠ "Optimal" then .ok ⟨none, 0, 0, res.1⟩
      else
        let selected := extractAssignment pool.length positions res.2
        if selected.length ≠ 11 then .ok ⟨none, 0, 0, "Infeasible"⟩
        else
          .ok ⟨some selected,
               (selected.map (fun e => pairScore pool strategy e.1 e.2)).sum,
               (selected.map (fun e => priceAt pool e.1)).sum,
               "Optimal"⟩

/-- optimizer.py `solve_with_fallback`: solve once, and if the status is
not `'Optimal'` solve again with the budget increased by the factor 1.5. -/
def solve_with_fallback (solver : Solver) (df : List Player)
    (formation : String) (budget : ℚ) (strategy : String) :
    Except String (SolveResult (List (Nat × String))) :=
  match solve_optimal_lineup solver df formation budget strategy with
  | .error e => .error e
  | .ok r =>
    if r.status = "Optimal" then .ok r
    else solve_optimal_lineup solver df formation (budget * (3/2)) strategy

/-- Insert a player into a list sorted by the comparator. -/
def insertByLe (le : Player → Player → Bool) (a : Player) : List Player → List Player
  | [] => [a]
  | b :: t => if le a b then a :: b :: t else b :: insertByLe le a t

/-- Insertion sort by a comparator; models `DataFrame.sort_values`. -/
def sortByLe (le : Player → Player → Bool) : List Player → List Player
  | [] => []
  | a :: t => insertByLe le a (sortByLe le t)

/-- `sort_values(sort_column, ascending=...)`. -/
def sortValues (key : Player → ℚ) (ascending : Bool) (l : List Player) : List Player :=
  sortByLe (fun a b => if ascending then decide (key a ≤ key b) else decide (key b ≤ key a)) l

/-- The mode dispatch of `solve_alternative_lineup` (lines 386-398): the
sort column and direction; any unknown mode falls through to the
rating-descending default. -/
def modeSortKey (mode : String) : (Player → ℚ) × Bool :=
  if mode = "rating" then (Player.rating, false)
  else if mode = "form" then (Player.form, false)
  else if mode = "budget" then (Player.fiyatM, true)
  else (Player.rating, false)

/-- The greedy per-slot selection loop of `solve_alternative_lineup`
(lines 404-420): for each slot in formation order, filter the healthy pool
to eligible players whose ID is not yet used, sort by the mode's key and
take the required count. -/
def greedySelect (pool : List Player) (req : List (String × Nat))
    (key : Player → ℚ) (ascending : Bool) : List (Player × String) :=
  (req.foldl
    (fun (st : List (Player × String) × List Nat) pr =>
      let chosen :=
        (sortValues key ascending
          (pool.filter
            (fun r => decide (r.altPozisyon ∈ eligibleFor pr.1) && !(st.2.contains r.id)))).take pr.2
      (st.1 ++ chosen.map (fun r => (r, pr.1)), st.2 ++ chosen.map Player.id))
    ([], [])).1

/-- optimizer.py `solve_alternative_lineup`: greedy selection; an unknown
formation yields the `'Infeasible'` result (this function raises no
exception, hence the exception-free return type); the budget is checked
only when the mode is not `'budget'`; per-player scores of a successful
selection are computed with strategy `'Dengeli'`. -/
def solve_alternative_lineup (df : List Player) (formation : String)
    (budget : ℚ) (mode : String) : SolveResult (List (Player × String)) :=
  if (FORMATIONS formation).isNone then ⟨none, 0, 0, "Infeasible"⟩
  else
    let freq := (FORMATIONS formation).getD []
    let pool := df.filter (fun r => r.sakatlik == 0)
    if pool.length < 11 then ⟨none, 0, 0, "Infeasible"⟩
    else
      let mk := modeSortKey mode
      let selected := greedySelect pool freq mk.1 mk.2
      if selected.length ≠ 11 then ⟨none, 0, 0, "Infeasible"⟩
      else
        let totalCost := (selected.map (fun e => e.1.fiyatM)).sum
        if budget < totalCost ∧ mode ≠ "budget" then ⟨none, 0, 0, "Infeasible"⟩
        else
          ⟨some selected,
           (selected.map (fun e => calculate_position_score e.1 e.2 "Dengeli")).sum,
           totalCost,
           "Optimal"⟩

/-- Sub-positions, in order, of a concrete 11-player test roster that fits
formation 4-4-2 exactly. -/
def rosterPos : List String :=
  ["GK", "CB", "CB", "LB", "RB", "CM", "CM", "LM", "RM", "ST", "ST"]

/-- A healthy test player with the given index and sub-position. -/
def mkPlayer (i : Nat) (pos : String) : Player :=
  { id := i, altPozisyon := pos, fiyatM := 10, sakatlik := 0, rating := 80, form := 50,
    ofansGucuNorm := some (1/2), defansGucuNorm := some (1/2), formNorm := some (1/2),
    stats := [] }

/-- The 11-player test roster. -/
def roster : List Player :=
  rosterPos.enum.map (fun ip => mkPlayer ip.1 ip.2)

/-- The slot the test roster's player `i` is meant to fill. -/
def rosterSlot (i : Nat) : String := (rosterPos.get? i).getD "GK"

/-- A solver oracle that never reports an optimal solve. -/
def trivialSolver : Solver :=
  fun _ _ _ _ => ("Infeasible", fun _ _ => false)

/-- A solver oracle that reports an optimal solve exactly on the one model
instance built from the test roster, formation 4-4-2, budget 110 and
strategy `'Dengeli'`, returning the diagonal roster assignment there. -/
def soundSolver : Solver :=
  fun pool req budget strategy =>
    if pool = roster ∧ req = (FORMATIONS "4-4-2").getD [] ∧ budget = 110 ∧ strategy = "Dengeli"
    then ("Optimal", fun i p => p == rosterSlot i)
    else ("Infeasible", fun _ _ => false)

/-- A solver oracle whose reported status depends on the budget: optimal
for budgets of at least 100, infeasible below.  Used to exhibit the
budget-relaxing retry of `solve_with_fallback`. -/
def retrySolver : Solver :=
  fun _ _ budget _ =>
    (if 100 ≤ budget then "Optimal" else "Infeasible", fun i p => p == rosterSlot i)

/-- The assignment extracted from the diagonal roster solution. -/
def testAssignment : List (Nat × String) :=
  [(0, "GK"), (1, "CB"), (2, "CB"), (3, "LB"), (4, "RB"), (5, "CM"), (6, "CM"),
   (7, "LM"), (8, "RM"), (9, "ST"), (10, "ST")]

/-- A 10-player (hence infeasible) pool: the test roster without its last
player. -/
def roster10 : List Player := roster.take 10

/-! ### General list lemmas -/

theorem countP_filterMap_aux {β : Type} (f : Nat → Option β) (pr : β → Bool) :
    ∀ l : List Nat,
      (l.filterMap f).countP pr = l.countP (fun i => ((f i).map pr).getD false) := by
  intro l
  induction l with
  | nil => rfl
  | cons a t ih =>
    rw [List.filterMap_cons, List.countP_cons]
    cases hfa : f a with
    | none => simpa [hfa] using ih
    | some b =>
      rw [List.countP_cons]
      simp [hfa, ih]

theorem length_filterMap_aux {β : Type} (f : Nat → Option β) :
    ∀ l : List Nat, (l.filterMap f).length = l.countP (fun i => (f i).isSome) := by
  intro l
  induction l with
  | nil => rfl
  | cons a t ih =>
    rw [List.filterMap_cons, List.countP_cons]
    cases hfa : f a with
    | none => simpa [hfa] using ih
    | some b => simp [hfa, ih]

theorem sum_map_filterMap_aux {β : Type} (f : Nat → Option β) (g : β → ℚ) :
    ∀ l : List Nat,
      ((l.filterMap f).map g).sum = (l.map (fun i => ((f i).map g).getD 0)).sum := by
  intro l
  induction l with
  | nil => rfl
  | cons a t ih =>
    rw [List.filterMap_cons, List.map_cons, List.sum_cons]
    cases hfa : f a with
    | none => simp [hfa, ih]
    | some b => simp [hfa, ih]

theorem sum_map_ite_one_aux (pr : Nat → Bool) :
    ∀ l : List Nat,
      (l.map (fun i => if pr i then (1 : ℕ) else 0)).sum = l.countP pr := by
  intro l
  induction l with
  | nil => rfl
  | cons a t ih =>
    rw [List.map_cons, List.sum_cons, List.countP_cons, ih]
    cases hpa : pr a <;> simp [hpa, Nat.add_comm]

theorem map_fst_filterMap_sublist_aux {β : Type} (f : Nat → Option (Nat × β))
    (hf : ∀ i e, f i = some e → e.1 = i) :
    ∀ l : List Nat, ((l.filterMap f).map Prod.fst).Sublist l := by
  intro l
  induction l with
  | nil => simp
  | cons a t ih =>
    rw [List.filterMap_cons]
    cases hfa : f a with
    | none => exact ih.cons a
    | some e =>
      rw [List.map_cons]
      have : e.1 = a := hf a e hfa
      rw [this]
      exact ih.cons₂ a

theorem two_le_length_of_mem_ne {α : Type} {a b : α} {l : List α}
    (ha : a ∈ l) (hb : b ∈ l) (hne : a ≠ b) : 2 ≤ l.length := by
  cases l with
  | nil => cases ha
  | cons x t =>
    cases t with
    | nil =>
      rw [List.mem_singleton] at ha hb
      exact absurd (ha.trans hb.symm) hne
    | cons y u => simp [List.length_cons]

theorem find_eq_iff_of_countP_le_one {positions : List String} (pred : String → Bool)
    (h1 : positions.countP pred ≤ 1) {q : String} (hq : q ∈ positions) :
    (positions.find? pred = some q ↔ pred q = true) := by
  constructor
  · intro h
    exact List.find?_some h
  · intro hpq
    have hsome : (positions.find? pred).isSome := by
      exact List.find?_isSome.mpr ⟨q, hq, hpq⟩
    obtain ⟨p0, hp0⟩ := Option.isSome_iff_exists.mp hsome
    have hp0mem : p0 ∈ positions := List.mem_of_find?_eq_some hp0
    have hp0pred : pred p0 = true := List.find?_some hp0
    by_cases hpq0 : p0 = q
    · rw [hpq0] at hp0; exact hp0
    · exfalso
      have hqf : q ∈ positions.filter pred := List.mem_filter.mpr ⟨hq, hpq⟩
      have hp0f : p0 ∈ positions.filter pred := List.mem_filter.mpr ⟨hp0mem, hp0pred⟩
      have h2 : 2 ≤ (positions.filter pred).length :=
        two_le_length_of_mem_ne hp0f hqf hpq0
      rw [← List.countP_eq_length_filter] at h2
      omega

theorem lookup_value_mem : ∀ (l : List (String × ℚ)) (k : String) (v : ℚ),
    l.lookup k = some v → ∃ a, (a, v) ∈ l := by
  intro l
  induction l with
  | nil => intro k v h; cases h
  | cons p t ih =>
    intro k v h
    rcases p with ⟨a, b⟩
    cases hk : k == a with
    | true =>
      simp only [List.lookup, hk, Option.some.injEq] at h
      exact ⟨a, by rw [h]; exact List.mem_cons_self _ _⟩
    | false =>
      simp only [List.lookup, hk] at h
      obtain ⟨a2, ha2⟩ := ih k v h
      exact ⟨a2, List.mem_cons_of_mem _ ha2⟩

/-! ### Configuration table facts -/

theorem formations_positions_nodup {f : String} {req : List (String × Nat)}
    (h : FORMATIONS f = some req) : (req.map Prod.fst).Nodup := by
  unfold FORMATIONS at h
  split_ifs at h <;> injection h with h2 <;> subst h2 <;> decide

/-! ### Statistic-fold lemmas -/

theorem statFold_shift (stats : List (String × ℚ)) :
    ∀ (weights : List (String × ℚ)) (d : ℚ) (b : Bool),
      weights.foldl
        (fun acc mw =>
          match stats.lookup mw.1 with
          | none => acc
          | some v => (acc.1 + v * mw.2, acc.2 || decide (0 < v)))
        (d, b) =
      (d + (statFold stats weights).1, b || (statFold stats weights).2) := by
  intro weights
  induction weights with
  | nil => intro d b; simp [statFold]
  | cons mw t ih =>
    intro d b
    rw [List.foldl_cons]
    cases hlk : stats.lookup mw.1 with
    | none =>
      have hrec : statFold stats (mw :: t) = statFold stats t := by
        unfold statFold
        rw [List.foldl_cons, hlk]
      rw [hrec]
      simpa [hlk] using ih d b
    | some v =>
      have hrec : statFold stats (mw :: t) =
          (v * mw.2 + (statFold stats t).1, decide (0 < v) || (statFold stats t).2) := by
        unfold statFold
        rw [List.foldl_cons, hlk]
        simpa using ih (v * mw.2) (decide (0 < v))
      rw [hrec]
      simp only [hlk]
      rw [ih (d + v * mw.2) (b || decide (0 < v))]
      rw [Prod.mk.injEq]
      exact ⟨by ring, by rw [Bool.or_assoc]⟩

theorem statFold_snd_iff (stats : List (String × ℚ)) :
    ∀ weights : List (String × ℚ),
      ((statFold stats weights).2 = true ↔
        ∃ mw ∈ weights, ∃ v, stats.lookup mw.1 = some v ∧ 0 < v) := by
  intro weights
  induction weights with
  | nil => simp [statFold]
  | cons mw t ih =>
    cases hlk : stats.lookup mw.1 with
    | none =>
      have hrec : statFold stats (mw :: t) = statFold stats t := by
        unfold statFold
        rw [List.foldl_cons, hlk]
      rw [hrec, ih]
      constructor
      · rintro ⟨mw2, hmem, v, hv, hvpos⟩
        exact ⟨mw2, List.mem_cons_of_mem _ hmem, v, hv, hvpos⟩
      · rintro ⟨mw2, hmem, v, hv, hvpos⟩
        rcases List.mem_cons.mp hmem with heq | hmem2
        · subst heq; rw [hlk] at hv; cases hv
        · exact ⟨mw2, hmem2, v, hv, hvpos⟩
    | some v =>
      have hrec : statFold stats (mw :: t) =
          (v * mw.2 + (statFold stats t).1, decide (0 < v) || (statFold stats t).2) := by
        unfold statFold
        rw [List.foldl_cons, hlk]
        simpa using statFold_shift stats t (v * mw.2) (decide (0 < v))
      rw [hrec]
      simp only [Bool.or_eq_true, decide_eq_true_eq, ih]
      constructor
      · rintro (hvpos | ⟨mw2, hmem, v2, hv2, hv2pos⟩)
        · exact ⟨mw, List.mem_cons_self _ _, v, hlk, hvpos⟩
        · exact ⟨mw2, List.mem_cons_of_mem _ hmem, v2, hv2, hv2pos⟩
      · rintro ⟨mw2, hmem, v2, hv2, hv2pos⟩
        rcases List.mem_cons.mp hmem with heq | hmem2
        · subst heq
          rw [hlk] at hv2
          injection hv2 with hv2e
          subst hv2e
          exact Or.inl hv2pos
        · exact Or.inr ⟨mw2, hmem2, v2, hv2, hv2pos⟩

theorem statFold_fst_nonneg_pos (stats : List (String × ℚ))
    (hnn : ∀ sv ∈ stats, 0 ≤ sv.2) :
    ∀ weights : List (String × ℚ), (∀ mw ∈ weights, 0 < mw.2) →
      0 ≤ (statFold stats weights).1 ∧
      ((statFold stats weights).2 = true → 0 < (statFold stats weights).1) := by
  intro weights
  induction weights with
  | nil => intro _; simp [statFold]
  | cons mw t ih =>
    intro hw
    have hwt : ∀ mw2 ∈ t, 0 < mw2.2 := fun mw2 h => hw mw2 (List.mem_cons_of_mem _ h)
    have hwh : 0 < mw.2 := hw mw (List.mem_cons_self _ _)
    obtain ⟨ihn, ihp⟩ := ih hwt
    cases hlk : stats.lookup mw.1 with
    | none =>
      have hrec : statFold stats (mw :: t) = statFold stats t := by
        unfold statFold
        rw [List.foldl_cons, hlk]
      rw [hrec]
      exact ⟨ihn, ihp⟩
    | some v =>
      have hvnn : 0 ≤ v := by
        obtain ⟨a, ha⟩ := lookup_value_mem stats mw.1 v hlk
        exact hnn (a, v) ha
      have hrec : statFold stats (mw :: t) =
          (v * mw.2 + (statFold stats t).1, decide (0 < v) || (statFold stats t).2) := by
        unfold statFold
        rw [List.foldl_cons, hlk]
        simpa using statFold_shift stats t (v * mw.2) (decide (0 < v))
      rw [hrec]
      dsimp only
      have hterm : 0 ≤ v * mw.2 := mul_nonneg hvnn hwh.le
      refine ⟨by linarith, ?_⟩
      intro hor
      simp only [Bool.or_eq_true, decide_eq_true_eq] at hor
      rcases hor with hvpos | htl
      · have : 0 < v * mw.2 := mul_pos hvpos hwh
        linarith
      · have := ihp htl
        linarith

theorem all_snd_pos_of_all (L : List (String × ℚ))
    (hall : L.all (fun x => decide (0 < x.2)) = true) : ∀ mw ∈ L, 0 < mw.2 := by
  intro mw h
  rw [List.all_eq_true] at hall
  simpa using hall mw h

theorem positional_weights_pos (p : String) :
    ∀ mw ∈ POSITIONAL_WEIGHTS p, 0 < mw.2 := by
  intro mw h
  unfold POSITIONAL_WEIGHTS at h
  by_cases h1 : p = "LB"
  · rw [if_pos h1] at h; exact all_snd_pos_of_all _ (by decide) mw h
  rw [if_neg h1] at h
  by_cases h2 : p = "RB"
  · rw [if_pos h2] at h; exact all_snd_pos_of_all _ (by decide) mw h
  rw [if_neg h2] at h
  by_cases h3 : p = "CB"
  · rw [if_pos h3] at h; exact all_snd_pos_of_all _ (by decide) mw h
  rw [if_neg h3] at h
  by_cases h4 : p = "GK"
  · rw [if_pos h4] at h; exact all_snd_pos_of_all _ (by decide) mw h
  rw [if_neg h4] at h
  by_cases h5 : p = "DM"
  · rw [if_pos h5] at h; exact all_snd_pos_of_all _ (by decide) mw h
  rw [if_neg h5] at h
  by_cases h6 : p = "CM"
  · rw [if_pos h6] at h; exact all_snd_pos_of_all _ (by decide) mw h
  rw [if_neg h6] at h
  by_cases h7 : p = "CAM"
  · rw [if_pos h7] at h; exact all_snd_pos_of_all _ (by decide) mw h
  rw [if_neg h7] at h
  by_cases h8 : p = "LM"
  · rw [if_pos h8] at h; exact all_snd_pos_of_all _ (by decide) mw h
  rw [if_neg h8] at h
  by_cases h9 : p = "RM"
  · rw [if_pos h9] at h; exact all_snd_pos_of_all _ (by decide) mw h
  rw [if_neg h9] at h
  by_cases h10 : p = "LW"
  · rw [if_pos h10] at h; exact all_snd_pos_of_all _ (by decide) mw h
  rw [if_neg h10] at h
  by_cases h11 : p = "RW"
  · rw [if_pos h11] at h; exact all_snd_pos_of_all _ (by decide) mw h
  rw [if_neg h11] at h
  by_cases h12 : p = "ST"
  · rw [if_pos h12] at h; exact all_snd_pos_of_all _ (by decide) mw h
  rw [if_neg h12] at h
  cases h

/-! ### Scoring-function facts -/

theorem strategy_weights_components_pos (strategy : String) :
    0 < ((STRATEGY_WEIGHTS strategy).getD dengeliWeights).ofans ∧
    0 < ((STRATEGY_WEIGHTS strategy).getD dengeliWeights).defans ∧
    0 < ((STRATEGY_WEIGHTS strategy).getD dengeliWeights).form := by
  unfold STRATEGY_WEIGHTS
  by_cases e1 : strategy = "Ofansif"
  · rw [if_pos e1]; exact ⟨by decide, by decide, by decide⟩
  rw [if_neg e1]
  by_cases e2 : strategy = "Defansif"
  · rw [if_pos e2]; exact ⟨by decide, by decide, by decide⟩
  rw [if_neg e2]
  by_cases e3 : strategy = "Dengeli"
  · rw [if_pos e3]; exact ⟨by decide, by decide, by decide⟩
  rw [if_neg e3]; exact ⟨by decide, by decide, by decide⟩

theorem adjusted_offense_pos (position strategy : String)
    (hpos : position ∈ attackingSlots) : 0 < (adjustedWeights position strategy).1 := by
  have hnd : position ∉ defensiveSlots := by
    have hdisj : ∀ q ∈ attackingSlots, q ∉ defensiveSlots := by decide
    exact hdisj position hpos
  obtain ⟨ho, hd, hf⟩ := strategy_weights_components_pos strategy
  unfold adjustedWeights
  simp only [if_neg hnd, if_pos hpos]
  apply div_pos <;> nlinarith

theorem usedStats_iff_exists (row : Player) (position : String) :
    usedStats row position = true ↔
      ∃ mw ∈ POSITIONAL_WEIGHTS position, ∃ v, row.stats.lookup mw.1 = some v ∧ 0 < v := by
  unfold usedStats
  exact statFold_snd_iff row.stats (POSITIONAL_WEIGHTS position)

theorem dataScore_pos_of_used (row : Player) (position : String)
    (hnn : ∀ sv ∈ row.stats, 0 ≤ sv.2) (hused : usedStats row position = true) :
    0 < dataScore row position := by
  have := statFold_fst_nonneg_pos row.stats hnn (POSITIONAL_WEIGHTS position)
    (positional_weights_pos position)
  exact this.2 hused

/-- C4: for every player row (with nonnegative recorded statistic values,
the data-model invariant for normalized columns), slot and strategy,
`calculate_position_score` returns exactly 0.3 times the rating-based
score plus 0.7 times the statistic-based score scaled to 0-100 as soon as
one of the slot's weighted metrics is present with a strictly positive
value, and exactly 0.3 times the rating-based score when every weighted
metric is absent or zero.  The function is total, so it never raises on
missing statistics. -/
theorem score_blend_formula (row : Player) (position strategy : String)
    (hnn : ∀ sv ∈ row.stats, 0 ≤ sv.2) :
    ((∃ mw ∈ POSITIONAL_WEIGHTS position, ∃ v, row.stats.lookup mw.1 = some v ∧ 0 < v) →
      calculate_position_score row position strategy =
        ratingScore row position strategy * (3/10) + (dataScore row position * 100) * (7/10)) ∧
    ((∀ mw ∈ POSITIONAL_WEIGHTS position, ∀ v, row.stats.lookup mw.1 = some v → v = 0) →
      calculate_position_score row position strategy =
        ratingScore row position strategy * (3/10)) := by
  constructor
  · intro hex
    have hused : usedStats row position = true := (usedStats_iff_exists row position).mpr hex
    have hpos : 0 < dataScore row position := dataScore_pos_of_used row position hnn hused
    unfold calculate_position_score
    rw [if_pos ⟨hused, hpos⟩]
  · intro hz
    have hne : ¬(usedStats row position = true ∧ 0 < dataScore row position) := by
      rintro ⟨hu, _⟩
      obtain ⟨mw, hmw, v, hv, hvpos⟩ := (usedStats_iff_exists row position).mp hu
      have := hz mw hmw v hv
      subst this
      exact lt_irrefl 0 hvpos
    unfold calculate_position_score
    rw [if_neg hne]

/-- Witness for C4 at concrete inputs: an ST row with one positive
recorded statistic takes the 30/70 blend, and an ST row with no recorded
statistic at all scores exactly 0.3 times the rating-based component. -/
theorem score_blend_formula_witness :
    (calculate_position_score { mkPlayer 0 "ST" with stats := [("goals", 1/2)] } "ST" "Dengeli" =
      ratingScore { mkPlayer 0 "ST" with stats := [("goals", 1/2)] } "ST" "Dengeli" * (3/10) +
        (dataScore { mkPlayer 0 "ST" with stats := [("goals", 1/2)] } "ST" * 100) * (7/10)) ∧
    (calculate_position_score (mkPlayer 0 "ST") "ST" "Dengeli" =
      ratingScore (mkPlayer 0 "ST") "ST" "Dengeli" * (3/10)) := by
  constructor
  · exact (score_blend_formula { mkPlayer 0 "ST" with stats := [("goals", 1/2)] } "ST" "Dengeli"
      (by decide)).1 ⟨("goals", 3/10), by decide, 1/2, by decide, by decide⟩
  · exact (score_blend_formula (mkPlayer 0 "ST") "ST" "Dengeli" (by decide)).2
      (by intro mw hmw v hv; simp [List.lookup] at hv)

/-- C9: for every player row, every strategy and every attacking slot
(ST, LW, RW, CAM), `calculate_position_score` is monotone in the player's
normalized offense value: raising `Ofans_Gucu_Norm` with every other field
fixed never decreases the score. -/
theorem score_monotone_offense_attacking (row : Player) (strategy : String)
    {position : String} (hpos : position ∈ attackingSlots) {v1 v2 : ℚ} (hle : v1 ≤ v2) :
    calculate_position_score { row with ofansGucuNorm := some v1 } position strategy ≤
      calculate_position_score { row with ofansGucuNorm := some v2 } position strategy := by
  have hw := adjusted_offense_pos position strategy hpos
  have hds1 : dataScore { row with ofansGucuNorm := some v1 } position =
      dataScore row position := rfl
  have hds2 : dataScore { row with ofansGucuNorm := some v2 } position =
      dataScore row position := rfl
  have hus1 : usedStats { row with ofansGucuNorm := some v1 } position =
      usedStats row position := rfl
  have hus2 : usedStats { row with ofansGucuNorm := some v2 } position =
      usedStats row position := rfl
  have hrs : ratingScore { row with ofansGucuNorm := some v1 } position strategy ≤
      ratingScore { row with ofansGucuNorm := some v2 } position strategy := by
    unfold ratingScore
    dsimp only [Option.getD]
    have hm := mul_le_mul_of_nonneg_left hle hw.le
    nlinarith
  unfold calculate_position_score
  rw [hds1, hds2, hus1, hus2]
  by_cases hc : usedStats row position = true ∧ 0 < dataScore row position
  · rw [if_pos hc, if_pos hc]; linarith
  · rw [if_neg hc, if_neg hc]; linarith

/-- Witness for C9 at concrete inputs: raising the normalized offense of a
test striker from 1/4 to 3/4 does not decrease its ST score under the
Ofansif strategy. -/
theorem score_monotone_offense_attacking_witness :
    calculate_position_score { mkPlayer 0 "ST" with ofansGucuNorm := some (1/4) } "ST" "Ofansif" ≤
      calculate_position_score { mkPlayer 0 "ST" with ofansGucuNorm := some (3/4) } "ST" "Ofansif" :=
  score_monotone_offense_attacking (mkPlayer 0 "ST") "Ofansif" (by decide) (by decide)

/-! ### Extraction lemmas for the assignment solver -/

theorem extract_countP_eq (pool : List Player) (req : List (String × Nat)) (budget : ℚ)
    (strategy : String) (y : Assign) (hfeas : LPFeasible pool req budget strategy y)
    {pr : String × Nat} (hpr : pr ∈ req) :
    (extractAssignment pool.length (req.map Prod.fst) y).countP (fun e => e.2 == pr.1) = pr.2 := by
  obtain ⟨h1, h2, _, _, _⟩ := hfeas
  have hq : pr.1 ∈ req.map Prod.fst := List.mem_map_of_mem Prod.fst hpr
  unfold extractAssignment
  rw [countP_filterMap_aux]
  rw [← h2 pr hpr]
  apply List.countP_congr
  intro i hi
  have hiff := find_eq_iff_of_countP_le_one (fun p => y i p) (h1 i hi) hq
  constructor
  · intro ht
    cases hfi : (req.map Prod.fst).find? (fun p => y i p) with
    | none => rw [hfi] at ht; simp at ht
    | some p0 =>
      rw [hfi] at ht
      simp only [Option.map_some', Option.getD_some] at ht
      have hp0 : p0 = pr.1 := by simpa using ht
      subst hp0
      exact List.find?_some hfi
  · intro hy
    have hfp : (req.map Prod.fst).find? (fun p => y i p) = some pr.1 := hiff.mpr hy
    rw [hfp]
    simp

theorem extract_length_eq (pool : List Player) (req : List (String × Nat)) (budget : ℚ)
    (strategy : String) (y : Assign) (hfeas : LPFeasible pool req budget strategy y) :
    (extractAssignment pool.length (req.map Prod.fst) y).length = 11 := by
  obtain ⟨h1, _, h3, _, _⟩ := hfeas
  unfold extractAssignment
  rw [length_filterMap_aux]
  rw [← h3, ← sum_map_ite_one_aux
    (fun i => (((req.map Prod.fst).find? (fun p => y i p)).map (fun p => (i, p))).isSome)
    (List.range pool.length)]
  apply congrArg List.sum
  apply List.map_congr_left
  intro i hi
  cases hfi : (req.map Prod.fst).find? (fun p => y i p) with
  | none =>
    have hz : (req.map Prod.fst).countP (fun p => y i p) = 0 := by
      rw [List.countP_eq_zero]
      exact List.find?_eq_none.mp hfi
    rw [hz]
    simp
  | some p0 =>
    have hpos : 0 < (req.map Prod.fst).countP (fun p => y i p) :=
      List.countP_pos.mpr ⟨p0, List.mem_of_find?_eq_some hfi, List.find?_some hfi⟩
    have hle := h1 i hi
    have hone : (req.map Prod.fst).countP (fun p => y i p) = 1 := by omega
    rw [hone]
    simp

theorem extract_cost_le (pool : List Player) (req : List (String × Nat)) (budget : ℚ)
    (strategy : String) (y : Assign) (hfeas : LPFeasible pool req budget strategy y) :
    ((extractAssignment pool.length (req.map Prod.fst) y).map
      (fun e => priceAt pool e.1)).sum ≤ budget := by
  obtain ⟨h1, _, _, h4, _⟩ := hfeas
  unfold extractAssignment
  rw [sum_map_filterMap_aux]
  have hmap : (List.range pool.length).map
      (fun i => ((((req.map Prod.fst).find? (fun p => y i p)).map (fun p => (i, p))).map
        (fun e => priceAt pool e.1)).getD 0) =
      (List.range pool.length).map
        (fun i => ((pool.get? i).map Player.fiyatM).getD 0 *
          ((req.map Prod.fst).countP (fun p => y i p) : ℚ)) := by
    apply List.map_congr_left
    intro i hi
    cases hfi : (req.map Prod.fst).find? (fun p => y i p) with
    | none =>
      have hz : (req.map Prod.fst).countP (fun p => y i p) = 0 := by
        rw [List.countP_eq_zero]
        exact List.find?_eq_none.mp hfi
      rw [hz]
      simp
    | some p0 =>
      have hpos : 0 < (req.map Prod.fst).countP (fun p => y i p) :=
        List.countP_pos.mpr ⟨p0, List.mem_of_find?_eq_some hfi, List.find?_some hfi⟩
      have hle := h1 i hi
      have hone : (req.map Prod.fst).countP (fun p => y i p) = 1 := by omega
      rw [hone]
      simp [priceAt]
  rw [hmap]
  exact h4

theorem extract_mem_eligible (pool : List Player) (req : List (String × Nat)) (budget : ℚ)
    (strategy : String) (y : Assign) (hfeas : LPFeasible pool req budget strategy y)
    {e : Nat × String} (he : e ∈ extractAssignment pool.length (req.map Prod.fst) y)
    {row : Player} (hrow : pool.get? e.1 = some row) :
    row.altPozisyon ∈ eligibleFor e.2 := by
  obtain ⟨_, _, _, _, h5⟩ := hfeas
  obtain ⟨i, hi, hfi⟩ := List.mem_filterMap.mp he
  cases hfo : (req.map Prod.fst).find? (fun p => y i p) with
  | none => rw [hfo] at hfi; cases hfi
  | some p0 =>
    rw [hfo] at hfi
    simp only [Option.map_some', Option.some.injEq] at hfi
    subst hfi
    have hy : y i p0 = true := List.find?_some hfo
    have hp0 : p0 ∈ req.map Prod.fst := List.mem_of_find?_eq_some hfo
    show row.altPozisyon ∈ eligibleFor p0
    by_contra hne
    have hsc : pairScore pool strategy i p0 = -1000 := by
      unfold pairScore
      rw [show pool.get? i = some row from hrow]
      show (if row.altPozisyon ∈ eligibleFor p0 then
        calculate_position_score row p0 strategy else -1000) = -1000
      rw [if_neg hne]
    have hlt : pairScore pool strategy i p0 < -500 := by rw [hsc]; norm_num
    have := h5 i hi p0 hp0 hlt
    rw [this] at hy
    cases hy

theorem extract_fst_nodup (n : Nat) (positions : List String) (y : Assign) :
    ((extractAssignment n positions y).map Prod.fst).Nodup := by
  apply List.Sublist.nodup _ (List.nodup_range n)
  unfold extractAssignment
  apply map_fst_filterMap_sublist_aux
  intro i e hfe
  cases hfo : positions.find? (fun p => y i p) with
  | none => rw [hfo] at hfe; cases hfe
  | some p0 =>
    rw [hfo] at hfe
    simp only [Option.map_some', Option.some.injEq] at hfe
    rw [← hfe]

theorem solve_optimal_ok_inversion (solver : Solver) (df : List Player)
    (formation : String) (budget : ℚ) (strategy : String)
    (r : SolveResult (List (Nat × String)))
    (hok : solve_optimal_lineup solver df formation budget strategy = .ok r)
    (hst : r.status = "Optimal") :
    (solver (df.filter (fun q => q.sakatlik == 0)) ((FORMATIONS formation).getD [])
        budget strategy).1 = "Optimal" ∧
    r.assignment = some (extractAssignment (df.filter (fun q => q.sakatlik == 0)).length
      (((FORMATIONS formation).getD []).map Prod.fst)
      (solver (df.filter (fun q => q.sakatlik == 0)) ((FORMATIONS formation).getD [])
        budget strategy).2) ∧
    r.totalCost = ((extractAssignment (df.filter (fun q => q.sakatlik == 0)).length
      (((FORMATIONS formation).getD []).map Prod.fst)
      (solver (df.filter (fun q => q.sakatlik == 0)) ((FORMATIONS formation).getD [])
        budget strategy).2).map
      (fun e => priceAt (df.filter (fun q => q.sakatlik == 0)) e.1)).sum := by
  simp only [solve_optimal_lineup] at hok
  split_ifs at hok with hA hB hC hD hE
  · injection hok with h
    rw [← h] at hst
    exact absurd hst (by decide)
  · injection hok with h
    rw [← h] at hst
    exact absurd hst hD
  · injection hok with h
    rw [← h] at hst
    exact absurd hst (by decide)
  · injection hok with h
    rw [← h]
    exact ⟨not_ne_iff.mp hD, rfl, rfl⟩

/-- C1: every successful run of `solve_optimal_lineup` (status `'Optimal'`
with a returned assignment), for a solver honouring the model constraints,
fills every slot of the formation with exactly its required player count,
and assigns exactly 11 players in total. -/
theorem optimal_slot_counts_exact (solver : Solver) (hsound : SolverSound solver)
    (df : List Player) (formation : String) (budget : ℚ) (strategy : String)
    (r : SolveResult (List (Nat × String))) (a : List (Nat × String))
    (hok : solve_optimal_lineup solver df formation budget strategy = .ok r)
    (hst : r.status = "Optimal") (ha : r.assignment = some a) :
    (∀ pr ∈ (FORMATIONS formation).getD [], a.countP (fun e => e.2 == pr.1) = pr.2) ∧
    a.length = 11 := by
  obtain ⟨hopt, hassign, _⟩ :=
    solve_optimal_ok_inversion solver df formation budget strategy r hok hst
  rw [ha] at hassign
  injection hassign with he
  subst he
  have hfeas := hsound (df.filter (fun q => q.sakatlik == 0))
    ((FORMATIONS formation).getD []) budget strategy hopt
  constructor
  · intro pr hpr
    exact extract_countP_eq _ _ _ _ _ hfeas hpr
  · exact extract_length_eq _ _ _ _ _ hfeas

/-- C2: in every successful run of `solve_optimal_lineup` (for a solver
honouring the model constraints), every assigned pair is eligible — the
player's sub-position belongs to the slot's eligible set, with a slot
missing from the table matched only by its own name — and every player
index of the healthy pool appears at most once in the assignment. -/
theorem optimal_assignment_eligible_unique (solver : Solver) (hsound : SolverSound solver)
    (df : List Player) (formation : String) (budget : ℚ) (strategy : String)
    (r : SolveResult (List (Nat × String))) (a : List (Nat × String))
    (hok : solve_optimal_lineup solver df formation budget strategy = .ok r)
    (hst : r.status = "Optimal") (ha : r.assignment = some a) :
    (∀ e ∈ a, ∀ row, (df.filter (fun q => q.sakatlik == 0)).get? e.1 = some row →
      row.altPozisyon ∈ eligibleFor e.2) ∧
    (a.map Prod.fst).Nodup := by
  obtain ⟨hopt, hassign, _⟩ :=
    solve_optimal_ok_inversion solver df formation budget strategy r hok hst
  rw [ha] at hassign
  injection hassign with he
  subst he
  have hfeas := hsound (df.filter (fun q => q.sakatlik == 0))
    ((FORMATIONS formation).getD []) budget strategy hopt
  constructor
  · intro e he row hrow
    exact extract_mem_eligible _ _ _ _ _ hfeas he hrow
  · exact extract_fst_nodup _ _ _

/-- C3: in every successful run of `solve_optimal_lineup` (for a solver
honouring the model constraints), the sum of the `Fiyat_M` prices of the
selected players — which is also the returned `total_cost` — is at most
the supplied budget, with no tolerance. -/
theorem optimal_assignment_within_budget (solver : Solver) (hsound : SolverSound solver)
    (df : List Player) (formation : String) (budget : ℚ) (strategy : String)
    (r : SolveResult (List (Nat × String))) (a : List (Nat × String))
    (hok : solve_optimal_lineup solver df formation budget strategy = .ok r)
    (hst : r.status = "Optimal") (ha : r.assignment = some a) :
    (a.map (fun e => priceAt (df.filter (fun q => q.sakatlik == 0)) e.1)).sum ≤ budget ∧
    r.totalCost ≤ budget := by
  obtain ⟨hopt, hassign, hcost⟩ :=
    solve_optimal_ok_inversion solver df formation budget strategy r hok hst
  rw [ha] at hassign
  injection hassign with he
  subst he
  have hfeas := hsound (df.filter (fun q => q.sakatlik == 0))
    ((FORMATIONS formation).getD []) budget strategy hopt
  have hle := extract_cost_le _ _ _ _ _ hfeas
  exact ⟨hle, by rw [hcost]; exact hle⟩

theorem soundSolver_sound : SolverSound soundSolver := by
  intro pool req budget strategy h
  unfold soundSolver at h ⊢
  by_cases hc : pool = roster ∧ req = (FORMATIONS "4-4-2").getD [] ∧
      budget = 110 ∧ strategy = "Dengeli"
  · rw [if_pos hc]
    obtain ⟨hp, hr, hb, hs⟩ := hc
    subst hp; subst hr; subst hb; subst hs
    unfold LPFeasible
    refine ⟨?_, ?_, ?_, ?_, ?_⟩ <;> decide
  · rw [if_neg hc] at h
    exact absurd h (by decide)

/-- Witness for C1 at a concrete run: the sound test solver on the
11-player roster, formation 4-4-2 and budget 110 yields the diagonal
assignment, whose per-slot counts match 4-4-2 exactly and whose length
is 11. -/
theorem optimal_slot_counts_exact_witness :
    (∀ pr ∈ (FORMATIONS "4-4-2").getD [],
      testAssignment.countP (fun e => e.2 == pr.1) = pr.2) ∧
    testAssignment.length = 11 :=
  optimal_slot_counts_exact soundSolver soundSolver_sound roster "4-4-2" 110 "Dengeli"
    ⟨some testAssignment, 165, 110, "Optimal"⟩ testAssignment rfl rfl rfl

/-- Witness for C2 at the same concrete run: every extracted pair of the
diagonal roster assignment is eligible and no player index repeats. -/
theorem optimal_assignment_eligible_unique_witness :
    (∀ e ∈ testAssignment, ∀ row,
      (roster.filter (fun q => q.sakatlik == 0)).get? e.1 = some row →
      row.altPozisyon ∈ eligibleFor e.2) ∧
    (testAssignment.map Prod.fst).Nodup :=
  optimal_assignment_eligible_unique soundSolver soundSolver_sound roster "4-4-2" 110 "Dengeli"
    ⟨some testAssignment, 165, 110, "Optimal"⟩ testAssignment rfl rfl rfl

/-- Witness for C3 at the same concrete run: the 11 selected prices sum to
110, which is within the budget 110. -/
theorem optimal_assignment_within_budget_witness :
    (testAssignment.map
      (fun e => priceAt (roster.filter (fun q => q.sakatlik == 0)) e.1)).sum ≤ 110 ∧
    (SolveResult.mk (some testAssignment) 165 110 "Optimal").totalCost ≤ (110 : ℚ) :=
  optimal_assignment_within_budget soundSolver soundSolver_sound roster "4-4-2" 110 "Dengeli"
    ⟨some testAssignment, 165, 110, "Optimal"⟩ testAssignment rfl rfl rfl

/-- C5: with a valid formation and a valid strategy, a pool holding fewer
than 11 healthy players makes `solve_optimal_lineup` return no assignment
and the status `'Infeasible'` for every budget and every solver oracle —
the solver is never consulted — and `solve_alternative_lineup` returns the
same infeasible result for every mode. -/
theorem short_circuit_small_pool (solver : Solver) (df : List Player)
    (formation : String) (budget : ℚ) (strategy mode : String)
    (hf : (FORMATIONS formation).isSome = true)
    (hs : (STRATEGY_WEIGHTS strategy).isSome = true)
    (hn : (df.filter (fun q => q.sakatlik == 0)).length < 11) :
    solve_optimal_lineup solver df formation budget strategy =
      .ok ⟨none, 0, 0, "Infeasible"⟩ ∧
    solve_alternative_lineup df formation budget mode = ⟨none, 0, 0, "Infeasible"⟩ := by
  obtain ⟨freq, hFo⟩ := Option.isSome_iff_exists.mp hf
  obtain ⟨sw, hSo⟩ := Option.isSome_iff_exists.mp hs
  constructor
  · simp only [solve_optimal_lineup]
    rw [hFo, hSo]
    rw [if_neg (by simp), if_neg (by simp), if_pos hn]
  · simp only [solve_alternative_lineup]
    rw [hFo]
    rw [if_neg (by simp), if_pos hn]

/-- Witness for C5 at a concrete input: the 10-player pool `roster10` is
reported infeasible by both entry points under formation 4-4-2 and
strategy `'Dengeli'`, with the solver oracle never reached. -/
theorem short_circuit_small_pool_witness :
    solve_optimal_lineup trivialSolver roster10 "4-4-2" 100 "Dengeli" =
      .ok ⟨none, 0, 0, "Infeasible"⟩ ∧
    solve_alternative_lineup roster10 "4-4-2" 100 "rating" = ⟨none, 0, 0, "Infeasible"⟩ :=
  short_circuit_small_pool trivialSolver roster10 "4-4-2" 100 "Dengeli" "rating"
    (by decide) (by decide) (by decide)

/-- Counterexample to C6 as stated: `solve_alternative_lineup` called with
the unknown formation name `'4-5-1'` does not fail with a validation error
(its return type has no error channel at all); it returns the status value
`'Infeasible'`. -/
theorem alternative_invalid_formation_returns_status :
    solve_alternative_lineup [] "4-5-1" 100 "rating" = ⟨none, 0, 0, "Infeasible"⟩ := rfl

/-- C6 (amended): only `solve_optimal_lineup` fails loudly on an invalid
configuration — it raises `ValueError` (modelled by `.error`) for an
unknown formation name and, for a known formation, for an unknown strategy
name; `solve_alternative_lineup` takes no strategy and instead returns the
plain status `'Infeasible'` for an unknown formation name. -/
theorem invalid_config_behavior (solver : Solver) (df : List Player)
    (formation : String) (budget : ℚ) (strategy mode : String) :
    ((FORMATIONS formation).isNone = true →
      solve_optimal_lineup solver df formation budget strategy =
        .error ("Geçersiz formasyon: " ++ formation)) ∧
    ((FORMATIONS formation).isNone = false → (STRATEGY_WEIGHTS strategy).isNone = true →
      solve_optimal_lineup solver df formation budget strategy =
        .error ("Geçersiz strateji: " ++ strategy)) ∧
    ((FORMATIONS formation).isNone = true →
      solve_alternative_lineup df formation budget mode = ⟨none, 0, 0, "Infeasible"⟩) := by
  refine ⟨?_, ?_, ?_⟩
  · intro h1
    simp only [solve_optimal_lineup]
    rw [if_pos h1]
  · intro h1 h2
    simp only [solve_optimal_lineup]
    rw [if_neg (by simp [h1]), if_pos h2]
  · intro h1
    simp only [solve_alternative_lineup]
    rw [if_pos h1]

/-- Witness for C6 (amended) at concrete inputs: the unknown formation
`'4-5-1'` and the unknown strategy `'Tempo'` raise in the optimal solver,
while the greedy entry point returns the `'Infeasible'` status. -/
theorem invalid_config_behavior_witness :
    solve_optimal_lineup trivialSolver [] "4-5-1" 100 "Dengeli" =
      .error ("Geçersiz formasyon: " ++ "4-5-1") ∧
    solve_optimal_lineup trivialSolver [] "4-4-2" 100 "Tempo" =
      .error ("Geçersiz strateji: " ++ "Tempo") ∧
    solve_alternative_lineup [] "4-5-1" 100 "form" = ⟨none, 0, 0, "Infeasible"⟩ :=
  ⟨(invalid_config_behavior trivialSolver [] "4-5-1" 100 "Dengeli" "form").1 (by decide),
   (invalid_config_behavior trivialSolver [] "4-4-2" 100 "Tempo" "form").2.1
     (by decide) (by decide),
   (invalid_config_behavior trivialSolver [] "4-5-1" 100 "Dengeli" "form").2.2 (by decide)⟩

/-- Counterexample to C7 as stated: with a budget-sensitive solver oracle,
`solve_optimal_lineup` on the test roster at budget 70 fails with status
`'Infeasible'`, yet `solve_with_fallback` on exactly the same input
returns `'Optimal'` — the core path retried the solve at the relaxed
budget 70 * 1.5 = 105, so the failure was not final. -/
theorem fallback_retry_counterexample :
    (solve_optimal_lineup retrySolver roster "4-4-2" 70 "Dengeli").toOption.map
        (fun q => q.status) = some "Infeasible" ∧
    (solve_with_fallback retrySolver roster "4-4-2" 70 "Dengeli").toOption.map
        (fun q => q.status) = some "Optimal" := ⟨rfl, rfl⟩

/-- C7 (amended): `solve_optimal_lineup` and `solve_alternative_lineup`
perform no retries themselves, but the core module also contains
`solve_with_fallback`, which does retry: whenever the first solve returns
a non-`'Optimal'` status, it re-invokes `solve_optimal_lineup` on the same
input with the budget relaxed by the factor 1.5. -/
theorem fallback_retries_with_higher_budget (solver : Solver) (df : List Player)
    (formation : String) (budget : ℚ) (strategy : String)
    (r : SolveResult (List (Nat × String)))
    (hok : solve_optimal_lineup solver df formation budget strategy = .ok r)
    (hst : r.status ≠ "Optimal") :
    solve_with_fallback solver df formation budget strategy =
      solve_optimal_lineup solver df formation (budget * (3/2)) strategy := by
  unfold solve_with_fallback
  rw [hok]
  show (if r.status = "Optimal" then Except.ok r
    else solve_optimal_lineup solver df formation (budget * (3/2)) strategy) = _
  rw [if_neg hst]

/-- Witness for C7 (amended) at a concrete input: on the failing budget-70
run of the budget-sensitive oracle, the fallback result is exactly the
solve at budget 70 * 1.5. -/
theorem fallback_retries_with_higher_budget_witness :
    solve_with_fallback retrySolver roster "4-4-2" 70 "Dengeli" =
      solve_optimal_lineup retrySolver roster "4-4-2" (70 * (3/2)) "Dengeli" :=
  fallback_retries_with_higher_budget retrySolver roster "4-4-2" 70 "Dengeli"
    ⟨none, 0, 0, "Infeasible"⟩ rfl (by decide)

/-- C8: whenever the greedy selection of `solve_alternative_lineup` fills
all 11 slots but its total cost exceeds the budget, the call fails with
`'Infeasible'` and no assignment exactly when the mode is not the
cost-minimizing `'budget'` mode; in `'budget'` mode the overspending squad
is still returned with status `'Optimal'`. -/
theorem greedy_budget_enforcement (df : List Player) (formation : String)
    (budget : ℚ) (mode : String) (freq : List (String × Nat))
    (hF : FORMATIONS formation = some freq)
    (hn : ¬ (df.filter (fun q => q.sakatlik == 0)).length < 11)
    (hlen : (greedySelect (df.filter (fun q => q.sakatlik == 0)) freq
      (modeSortKey mode).1 (modeSortKey mode).2).length = 11)
    (hcost : budget < ((greedySelect (df.filter (fun q => q.sakatlik == 0)) freq
      (modeSortKey mode).1 (modeSortKey mode).2).map (fun e => e.1.fiyatM)).sum) :
    (((solve_alternative_lineup df formation budget mode).status = "Infeasible" ∧
      (solve_alternative_lineup df formation budget mode).assignment = none) ↔
        mode ≠ "budget") ∧
    (mode = "budget" →
      (solve_alternative_lineup df formation budget mode).status = "Optimal" ∧
      (solve_alternative_lineup df formation budget mode).assignment =
        some (greedySelect (df.filter (fun q => q.sakatlik == 0)) freq
          (modeSortKey mode).1 (modeSortKey mode).2)) := by
  by_cases hm : mode = "budget"
  · have hres : solve_alternative_lineup df formation budget mode =
        ⟨some (greedySelect (df.filter (fun q => q.sakatlik == 0)) freq
            (modeSortKey mode).1 (modeSortKey mode).2),
         ((greedySelect (df.filter (fun q => q.sakatlik == 0)) freq
            (modeSortKey mode).1 (modeSortKey mode).2).map
           (fun e => calculate_position_score e.1 e.2 "Dengeli")).sum,
         ((greedySelect (df.filter (fun q => q.sakatlik == 0)) freq
            (modeSortKey mode).1 (modeSortKey mode).2).map (fun e => e.1.fiyatM)).sum,
         "Optimal"⟩ := by
      simp only [solve_alternative_lineup]
      rw [hF]
      rw [if_neg (by simp), if_neg hn, if_neg (by simp [hlen]), if_neg (by simp [hm])]
      rfl
    refine ⟨?_, fun _ => ?_⟩
    · constructor
      · rintro ⟨hcontra, -⟩
        rw [hres] at hcontra
        have hne : ("Optimal" : String) ≠ "Infeasible" := by decide
        exact absurd hcontra hne
      · intro hne
        exact absurd hm hne
    · rw [hres]
      exact ⟨rfl, rfl⟩
  · have hres : solve_alternative_lineup df formation budget mode =
        ⟨none, 0, 0, "Infeasible"⟩ := by
      simp only [solve_alternative_lineup]
      rw [hF]
      rw [if_neg (by simp), if_neg hn, if_neg (by simp [hlen]), if_pos ⟨hcost, hm⟩]
    refine ⟨?_, fun hcontra => absurd hcontra hm⟩
    rw [hres]
    exact ⟨fun _ => hm, fun _ => ⟨rfl, rfl⟩⟩

/-- C10: an unknown mode string is handled silently: for any mode other
than `'rating'`, `'form'` and `'budget'`, `solve_alternative_lineup`
returns exactly the same result as mode `'rating'` on the same inputs,
reporting no error. -/
theorem alternative_unknown_mode_as_rating (df : List Player) (formation : String)
    (budget : ℚ) (mode : String) (h1 : mode ≠ "rating") (h2 : mode ≠ "form")
    (h3 : mode ≠ "budget") :
    solve_alternative_lineup df formation budget mode =
      solve_alternative_lineup df formation budget "rating" := by
  have hk : modeSortKey mode = modeSortKey "rating" := by
    unfold modeSortKey
    rw [if_neg h1, if_neg h2, if_neg h3, if_pos rfl]
  have hiff : (mode = "budget") ↔ (("rating" : String) = "budget") :=
    iff_of_false h3 (by decide)
  simp only [solve_alternative_lineup, hk, ne_eq, hiff]

/-- Witness for C10 at a concrete input: the unknown mode `'hibrit'`
produces exactly the rating-mode result on the test roster. -/
theorem alternative_unknown_mode_as_rating_witness :
    solve_alternative_lineup roster "4-4-2" 200 "hibrit" =
      solve_alternative_lineup roster "4-4-2" 200 "rating" :=
  alternative_unknown_mode_as_rating roster "4-4-2" 200 "hibrit"
    (by decide) (by decide) (by decide)

/-- Witness for C8 at a concrete input: on the test roster the rating-mode
greedy squad costs 110, which exceeds the budget 50, and the call reports
`'Infeasible'` with no assignment because the mode is not `'budget'`. -/
theorem greedy_budget_enforcement_witness :
    (((solve_alternative_lineup roster "4-4-2" 50 "rating").status = "Infeasible" ∧
      (solve_alternative_lineup roster "4-4-2" 50 "rating").assignment = none) ↔
        ("rating" : String) ≠ "budget") ∧
    (("rating" : String) = "budget" →
      (solve_alternative_lineup roster "4-4-2" 50 "rating").status = "Optimal" ∧
      (solve_alternative_lineup roster "4-4-2" 50 "rating").assignment =
        some (greedySelect (roster.filter (fun q => q.sakatlik == 0))
          [("GK", 1), ("CB", 2), ("LB", 1), ("RB", 1), ("CM", 2), ("LM", 1), ("RM", 1), ("ST", 2)]
          (modeSortKey "rating").1 (modeSortKey "rating").2)) :=
  greedy_budget_enforcement roster "4-4-2" 50 "rating"
    [("GK", 1), ("CB", 2), ("LB", 1), ("RB", 1), ("CM", 2), ("LM", 1), ("RM", 1), ("ST", 2)]
    rfl (by decide) (by decide) (by decide)
